import Mathlib

/-!
Shallow embedding of `rsl_rl/modules/student_teacher.py` (class `StudentTeacher`)
and proofs of the specification claims about it.

Tensors are modelled as a shape (list of dimension sizes) together with a flat
row-major data list over a scalar type `α` (the float dtype is idealized as an
arbitrary scalar type; witnesses instantiate `α := ℚ`, and the idealized-real
noise-equivalence claim instantiates `α := ℝ`).  The external collaborators of
the module (the `MLP` forward pass, the `EmpiricalNormalization` forward pass
and statistics update, and `torch.exp`/`torch.log` on scalars) are supplied as
an `Ext` record of abstract functions, since their implementations are outside
the verified source.
-/

deriving instance DecidableEq for Except

namespace StudentTeacherSpec

/-- Tests whether `needle` is an initial segment of `hay` (over characters). -/
def leadsWith : List Char → List Char → Bool
  | [], _ => true
  | _ :: _, [] => false
  | a :: as, b :: bs => a == b && leadsWith as bs

/-- Python `needle in hay` for strings: does `needle` occur contiguously in `hay`? -/
def occursIn (needle : List Char) : List Char → Bool
  | [] => needle.isEmpty
  | c :: cs => leadsWith needle (c :: cs) || occursIn needle cs

/-- Fuel-indexed worker for `removeAll` (structural recursion on the fuel so
the kernel can evaluate it; every step consumes at least one character, so
`fuel = s.length` suffices and the fuel-exhausted arm is never reached for that
choice). -/
def removeAllAux (needle : List Char) : Nat → List Char → List Char
  | 0, s => s
  | _, [] => []
  | fuel + 1, c :: cs =>
    if needle ≠ [] ∧ leadsWith needle (c :: cs) = true then
      removeAllAux needle fuel (cs.drop (needle.length - 1))
    else
      c :: removeAllAux needle fuel cs

/-- Python `hay.replace(needle, "")`: remove every (leftmost-first,
non-overlapping) occurrence of `needle` from `hay`. -/
def removeAll (needle : List Char) (s : List Char) : List Char :=
  removeAllAux needle s.length s

/-- Python `needle in hay` on `String`. -/
def strOccurs (needle hay : String) : Bool :=
  occursIn needle.data hay.data

/-- Python `hay.replace(needle, "")` on `String`. -/
def strRemoveAll (needle hay : String) : String :=
  ⟨removeAll needle.data hay.data⟩

/-- A torch tensor: a shape and flat row-major data over scalar type `α`. -/
structure Tensor (α : Type) where
  shape : List Nat
  data : List α
deriving DecidableEq

/-- The last dimension of a tensor (its feature width for a 2-D batch tensor). -/
def lastDim {α : Type} (t : Tensor α) : Nat := t.shape.getLastD 0

/-- A flat mapping from parameter/observation-group name to tensor.  Used both
for PyTorch state dicts and for observation dictionaries. -/
abbrev StateDict (α : Type) := List (String × Tensor α)

/-- Dictionary lookup (first binding wins). -/
def lookupSD {α : Type} (d : StateDict α) (k : String) : Option (Tensor α) :=
  (d.find? (fun kv => kv.1 == k)).map (fun kv => kv.2)

/-- The list of keys of a state dict. -/
def keysOf {α : Type} (d : StateDict α) : List String := d.map (fun kv => kv.1)

/-- Same key set (ignoring order): no missing and no unexpected keys.  This is
the condition under which a strict PyTorch `load_state_dict` succeeds. -/
def keySetEqB (a b : List String) : Bool :=
  a.all (fun k => b.contains k) && b.all (fun k => a.contains k)

/-- Prefix every key of a state dict, as PyTorch does when flattening a
submodule into its parent state dict. -/
def addPre {α : Type} (p : String) (d : StateDict α) : StateDict α :=
  d.map (fun kv => (p ++ kv.1, kv.2))

/-- The parameters of `own` after copying in the values of `sd` at key `p ++ k`
for every own key `k` that `sd` provides (PyTorch load never adds or removes
parameters; unmatched own parameters keep their value). -/
def loadInto {α : Type} (own : StateDict α) (p : String) (sd : StateDict α) : StateDict α :=
  own.map (fun kv => (kv.1, (lookupSD sd (p ++ kv.1)).getD kv.2))

/-- `nn.Module.load_state_dict` for a leaf submodule: with `strict` set, the key
sets must coincide exactly (else a `RuntimeError` is raised); the values of
matching keys are copied in. -/
def loadSub {α : Type} (own sd : StateDict α) (strict : Bool) : Except String (StateDict α) :=
  if strict && !keySetEqB (keysOf own) (keysOf sd) then
    .error "Error(s) in loading state_dict"
  else
    .ok (loadInto own "" sd)

/-- External collaborators of the `StudentTeacher` module, supplied as abstract
functions: the `MLP` forward pass (a pure function of the network parameters and
the input), the `EmpiricalNormalization` forward pass (modelled from the spec:
it applies the current running statistics and never mutates them on the
normalize path; the statistics mutation is the separate `update` operation),
the `EmpiricalNormalization.update` statistics fold, and elementwise
`torch.exp` / `torch.log` on scalars. -/
structure Ext (α : Type) where
  mlpF : StateDict α → Tensor α → Tensor α
  normF : StateDict α → Tensor α → Tensor α
  normUpd : StateDict α → Tensor α → StateDict α
  qexp : α → α
  qlog : α → α

/-- The state of a `StudentTeacher` module: the parameter dicts of the student
and teacher MLPs, the state dicts of the two normalization slots (empty when the
slot is `nn.Identity`), the noise parameter (key `"std"` or `"log_std"`), the
stored action distribution (mean and stddev tensors, `none` before the first
`update_distribution`), the provenance flag, the per-submodule training-mode
flags, and the construction-time configuration. -/
structure STModule (α : Type) where
  loaded_teacher : Bool
  obs_groups_policy : List String
  obs_groups_teacher : List String
  num_student_obs : Nat
  num_teacher_obs : Nat
  num_actions : Nat
  student : StateDict α
  student_obs_normalization : Bool
  student_obs_normalizer : StateDict α
  teacher : StateDict α
  teacher_obs_normalization : Bool
  teacher_obs_normalizer : StateDict α
  noise_std_type : String
  noise : StateDict α
  distribution : Option (Tensor α × Tensor α)
  training : Bool
  student_training : Bool
  snorm_training : Bool
  teacher_training : Bool
  tnorm_training : Bool
deriving DecidableEq

/-- The feature width (`shape[-1]`) of group `g` in an observation mapping
(`0` when the group is absent; only used under presence hypotheses). -/
def widthOf {α : Type} (obs : StateDict α) (g : String) : Nat :=
  match lookupSD obs g with
  | some t => lastDim t
  | none => 0

/-- The construction-time loop over a group list: each group must be present in
the shape-probe mapping and have exactly 2 dimensions (the source asserts
`len(obs[obs_group].shape) == 2`), and the feature widths are summed. -/
def sumWidths {α : Type} (obs : StateDict α) : List String → Except String Nat
  | [] => .ok 0
  | g :: gs =>
    match lookupSD obs g with
    | none => .error ("KeyError: " ++ g)
    | some t =>
      if t.shape.length = 2 then
        match sumWidths obs gs with
        | .ok n => .ok (lastDim t + n)
        | .error e => .error e
      else
        .error "The StudentTeacher module only supports 1D observations."

/-- A constant 1-D tensor of length `n` (models `c * torch.ones(n)` for the
noise-parameter initialization). -/
def vecT {α : Type} (n : Nat) (c : α) : Tensor α := ⟨[n], List.replicate n c⟩

/-- `StudentTeacher.__init__`.  Validates every referenced observation group of
the shape-probe mapping (present and exactly 2-D), caches the summed feature
widths, selects the normalization slots (an `nn.Identity` slot has an empty
state dict), validates the noise parameterization mode and initializes the
noise parameter, and sets the initial training-mode flags (`nn.Module` defaults
to training mode everywhere; the source calls `self.teacher.eval()` during
construction, and only that).  The freshly initialized MLP and normalizer
parameters are supplied by the external initializers as `s0 t0 sn0 tn0`. -/
def mkStudentTeacher {α : Type} (E : Ext α) (probe : StateDict α)
    (pg tg : List String) (na : Nat) (f1 f2 : Bool)
    (s0 t0 sn0 tn0 : StateDict α) (ins : α) (nst : String) :
    Except String (STModule α) :=
  match sumWidths probe pg with
  | .error e => .error e
  | .ok nS =>
    match sumWidths probe tg with
    | .error e => .error e
    | .ok nT =>
      if nst = "scalar" ∨ nst = "log" then
        .ok {
          loaded_teacher := false
          obs_groups_policy := pg
          obs_groups_teacher := tg
          num_student_obs := nS
          num_teacher_obs := nT
          num_actions := na
          student := s0
          student_obs_normalization := f1
          student_obs_normalizer := if f1 then sn0 else []
          teacher := t0
          teacher_obs_normalization := f2
          teacher_obs_normalizer := if f2 then tn0 else []
          noise_std_type := nst
          noise :=
            if nst = "scalar" then [("std", vecT na ins)]
            else [("log_std", vecT na (E.qlog ins))]
          distribution := none
          training := true
          student_training := true
          snorm_training := true
          teacher_training := false
          tnorm_training := true }
      else
        .error ("Unknown standard deviation type: " ++ nst ++ ". Should be scalar or log")

/-- The routing loop body: look up each listed group in the observation mapping
(a missing group raises `KeyError`) and collect the tensors in order. -/
def gatherGroups {α : Type} (obs : StateDict α) : List String → Except String (List (Tensor α))
  | [] => .ok []
  | g :: gs =>
    match lookupSD obs g with
    | none => .error ("KeyError: " ++ g)
    | some t =>
      match gatherGroups obs gs with
      | .error e => .error e
      | .ok ts => .ok (t :: ts)

/-- `torch.cat(tensors, dim=-1)`: requires a non-empty list of tensors of equal
rank at least 1 whose dimensions agree everywhere except the last; the result
keeps the leading dimensions and sums the last ones, interleaving the data
row by row. -/
def catLastDim {α : Type} [DecidableEq α] (ts : List (Tensor α)) : Except String (Tensor α) :=
  match ts with
  | [] => .error "torch.cat: expected a non-empty list of Tensors"
  | t :: rest =>
    if t.shape.length = 0 then
      .error "torch.cat: zero-dimensional tensor cannot be concatenated"
    else if rest.all (fun u =>
        u.shape.length == t.shape.length && u.shape.dropLast == t.shape.dropLast) then
      let rows := t.shape.dropLast.prod
      .ok ⟨t.shape.dropLast ++ [((t :: rest).map lastDim).sum],
           (List.range rows).flatMap (fun r =>
             (t :: rest).flatMap (fun u => (u.data.drop (r * lastDim u)).take (lastDim u)))⟩
    else
      .error "torch.cat: tensor shape mismatch"

/-- `StudentTeacher.get_student_obs`: gather the groups of the `"policy"` list
and concatenate them along the feature axis. -/
def get_student_obs {α : Type} [DecidableEq α] (m : STModule α) (obs : StateDict α) :
    Except String (Tensor α) :=
  match gatherGroups obs m.obs_groups_policy with
  | .error e => .error e
  | .ok ts => catLastDim ts

/-- `StudentTeacher.get_teacher_obs`: gather the groups of the `"teacher"` list
and concatenate them along the feature axis. -/
def get_teacher_obs {α : Type} [DecidableEq α] (m : STModule α) (obs : StateDict α) :
    Except String (Tensor α) :=
  match gatherGroups obs m.obs_groups_teacher with
  | .error e => .error e
  | .ok ts => catLastDim ts

/-- Apply the student normalization slot: the empirical normalizer's forward
pass when enabled, `nn.Identity` otherwise. -/
def applySNorm {α : Type} (E : Ext α) (m : STModule α) (x : Tensor α) : Tensor α :=
  if m.student_obs_normalization then E.normF m.student_obs_normalizer x else x

/-- Apply the teacher normalization slot: the empirical normalizer's forward
pass when enabled, `nn.Identity` otherwise. -/
def applyTNorm {α : Type} (E : Ext α) (m : STModule α) (x : Tensor α) : Tensor α :=
  if m.teacher_obs_normalization then E.normF m.teacher_obs_normalizer x else x

/-- `Parameter.expand_as`: broadcast a 1-D noise vector over the leading
(batch) dimensions of the target shape. -/
def expandTo {α : Type} (v : Tensor α) (shape : List Nat) : Tensor α :=
  ⟨shape, (List.replicate shape.dropLast.prod v.data).flatten⟩

/-- Elementwise map over a tensor (models elementwise `torch.exp`). -/
def tmap {α : Type} (f : α → α) (t : Tensor α) : Tensor α := ⟨t.shape, t.data.map f⟩

/-- The `"scalar"` branch of the standard-deviation computation in
`update_distribution`: `std = self.std.expand_as(mean)` (an absent attribute
would be a Python `AttributeError`; construction always provides it). -/
def scalarBranchStd {α : Type} (m : STModule α) (meanShape : List Nat) :
    Except String (Tensor α) :=
  match lookupSD m.noise "std" with
  | some v => .ok (expandTo v meanShape)
  | none => .error "AttributeError: std"

/-- The `"log"` branch of the standard-deviation computation in
`update_distribution`: `std = torch.exp(self.log_std).expand_as(mean)`. -/
def logBranchStd {α : Type} (E : Ext α) (m : STModule α) (meanShape : List Nat) :
    Except String (Tensor α) :=
  match lookupSD m.noise "log_std" with
  | some v => .ok (expandTo (tmap E.qexp v) meanShape)
  | none => .error "AttributeError: log_std"

/-- The standard-deviation dispatch of `update_distribution` (source lines
113-118): the two recognized noise parameterizations, and the unknown-type
`ValueError` branch otherwise. -/
def noiseStdTensor {α : Type} (E : Ext α) (m : STModule α) (meanShape : List Nat) :
    Except String (Tensor α) :=
  if m.noise_std_type = "scalar" then scalarBranchStd m meanShape
  else if m.noise_std_type = "log" then logBranchStd E m meanShape
  else .error ("Unknown standard deviation type: " ++ m.noise_std_type ++ ". Should be scalar or log")

/-- `StudentTeacher.update_distribution`: compute the mean with the student
MLP, compute the broadcast standard deviation per the noise parameterization,
and store the diagonal-Gaussian distribution (mean, stddev). -/
def update_distribution {α : Type} (E : Ext α) (m : STModule α) (obsT : Tensor α) :
    Except String (STModule α) :=
  match noiseStdTensor E m (E.mlpF m.student obsT).shape with
  | .error e => .error e
  | .ok stdT => .ok { m with distribution := some (E.mlpF m.student obsT, stdT) }

/-- One reparameterized Gaussian sample: `mean + std * eps` elementwise, with
the exogenous standard-normal draw `eps` made explicit. -/
def gaussSample {α : Type} [Add α] [Mul α] (mean stdT eps : Tensor α) : Tensor α :=
  ⟨mean.shape, List.zipWith (fun a b => a + b) mean.data
      (List.zipWith (fun a b => a * b) stdT.data eps.data)⟩

/-- `StudentTeacher.act`: route and normalize the student observations,
refresh the stored action distribution, and return one stochastic sample. -/
def act {α : Type} [DecidableEq α] [Add α] [Mul α] (E : Ext α) (m : STModule α)
    (obs : StateDict α) (eps : Tensor α) : Except String (STModule α × Tensor α) :=
  match get_student_obs m obs with
  | .error e => .error e
  | .ok routed =>
    match update_distribution E m (applySNorm E m routed) with
    | .error e => .error e
    | .ok m' =>
      match m'.distribution with
      | some (mean, stdT) => .ok (m', gaussSample mean stdT eps)
      | none => .error "AttributeError: distribution"

/-- `StudentTeacher.act_inference`: route and normalize the student
observations and return the deterministic student output; the module state
(including the stored distribution) is not touched. -/
def act_inference {α : Type} [DecidableEq α] (E : Ext α) (m : STModule α)
    (obs : StateDict α) : Except String (STModule α × Tensor α) :=
  match get_student_obs m obs with
  | .error e => .error e
  | .ok routed => .ok (m, E.mlpF m.student (applySNorm E m routed))

/-- `StudentTeacher.evaluate`: route and normalize the teacher observations
and return the teacher output (computed under `torch.no_grad()`; gradients are
outside this embedding). -/
def evaluate {α : Type} [DecidableEq α] (E : Ext α) (m : STModule α)
    (obs : StateDict α) : Except String (STModule α × Tensor α) :=
  match get_teacher_obs m obs with
  | .error e => .error e
  | .ok routed => .ok (m, E.mlpF m.teacher (applyTNorm E m routed))

/-- `StudentTeacher.update_normalization`: when student normalization is
enabled, route the student observations and fold them into the student
normalizer's running statistics; a no-op otherwise. -/
def update_normalization {α : Type} [DecidableEq α] (E : Ext α) (m : STModule α)
    (obs : StateDict α) : Except String (STModule α) :=
  if m.student_obs_normalization then
    match get_student_obs m obs with
    | .error e => .error e
    | .ok routed => .ok { m with student_obs_normalizer := E.normUpd m.student_obs_normalizer routed }
  else
    .ok m

/-- `StudentTeacher.train`: the superclass toggle sets every training flag to
`mode`, after which the teacher MLP and the teacher normalizer are forced back
into evaluation mode. -/
def train {α : Type} (m : STModule α) (mode : Bool) : STModule α :=
  { m with training := mode, student_training := mode, snorm_training := mode,
           teacher_training := false, tnorm_training := false }

/-- The remapped teacher-MLP dict of the prior-policy branch: keys containing
`"actor."` with every occurrence of `"actor."` removed. -/
def actorRemap {α : Type} (sd : StateDict α) : StateDict α :=
  sd.filterMap (fun kv =>
    if strOccurs "actor." kv.1 then some (strRemoveAll "actor." kv.1, kv.2) else none)

/-- The remapped teacher-normalizer dict of the prior-policy branch: keys
containing `"actor_obs_normalizer."` with every occurrence of that substring
removed. -/
def actorNormRemap {α : Type} (sd : StateDict α) : StateDict α :=
  sd.filterMap (fun kv =>
    if strOccurs "actor_obs_normalizer." kv.1 then
      some (strRemoveAll "actor_obs_normalizer." kv.1, kv.2)
    else none)

/-- The flat state dict of the whole module, as PyTorch produces it: the direct
noise parameter plus every submodule's dict under its attribute-name plus dot
(an `nn.Identity` normalization slot contributes no keys). -/
def fullStateDict {α : Type} (m : STModule α) : StateDict α :=
  m.noise ++ addPre "student." m.student
    ++ addPre "student_obs_normalizer." m.student_obs_normalizer
    ++ addPre "teacher." m.teacher
    ++ addPre "teacher_obs_normalizer." m.teacher_obs_normalizer

/-- `super().load_state_dict(state_dict, strict)` on the whole module: with
`strict` set, the incoming key set must coincide with the module's own flat key
set; the values of matching keys are copied into every submodule (and the
direct noise parameter) through the per-submodule key prefixes. -/
def loadWholeModule {α : Type} (m : STModule α) (sd : StateDict α) (strict : Bool) :
    Except String (STModule α) :=
  if strict && !keySetEqB (keysOf (fullStateDict m)) (keysOf sd) then
    .error "Error(s) in loading state_dict"
  else
    .ok { m with
      noise := loadInto m.noise "" sd
      student := loadInto m.student "student." sd
      student_obs_normalizer := loadInto m.student_obs_normalizer "student_obs_normalizer." sd
      teacher := loadInto m.teacher "teacher." sd
      teacher_obs_normalizer := loadInto m.teacher_obs_normalizer "teacher_obs_normalizer." sd }

/-- `StudentTeacher.load_state_dict`: classify the incoming mapping by key
substrings.  If any key contains `"actor"`, load only the teacher MLP and the
teacher normalizer from the remapped dicts, set the provenance flag, force the
teacher side into evaluation mode, and return `false` (training does not
resume).  Else if any key contains `"student"`, load the whole module, set the
provenance flag, force the teacher side into evaluation mode, and return
`true` (training resumes).  Else raise the classification `ValueError`. -/
def load_state_dict {α : Type} (m : STModule α) (sd : StateDict α) (strict : Bool) :
    Except String (STModule α × Bool) :=
  if sd.any (fun kv => strOccurs "actor" kv.1) then
    match loadSub m.teacher (actorRemap sd) strict with
    | .error e => .error e
    | .ok tp =>
      match loadSub m.teacher_obs_normalizer (actorNormRemap sd) strict with
      | .error e => .error e
      | .ok tnp =>
        .ok ({ m with
                teacher := tp, teacher_obs_normalizer := tnp, loaded_teacher := true,
                teacher_training := false, tnorm_training := false },
             false)
  else if sd.any (fun kv => strOccurs "student" kv.1) then
    match loadWholeModule m sd strict with
    | .error e => .error e
    | .ok m' =>
      .ok ({ m' with
              loaded_teacher := true, teacher_training := false, tnorm_training := false },
           true)
  else
    .error "state_dict does not contain student or teacher parameters"

/-- A rollout-loop call made against the module between checkpoint loads. -/
inductive RolloutCall (α : Type) where
  | actC (obs : StateDict α) (eps : Tensor α)
  | updC (obs : StateDict α)

/-- Run one rollout call against the module, keeping the resulting module
state (the sampled action of `act` is returned to the caller and not stored). -/
def stepCall {α : Type} [DecidableEq α] [Add α] [Mul α] (E : Ext α) (m : STModule α) :
    RolloutCall α → Except String (STModule α)
  | .actC obs eps =>
    match act E m obs eps with
    | .error e => .error e
    | .ok p => .ok p.1
  | .updC obs => update_normalization E m obs

/-- Run a finite sequence of `act` / `update_normalization` calls, threading
the module state; a raised error aborts the sequence. -/
def runCalls {α : Type} [DecidableEq α] [Add α] [Mul α] (E : Ext α) :
    STModule α → List (RolloutCall α) → Except String (STModule α)
  | m, [] => .ok m
  | m, c :: cs =>
    match stepCall E m c with
    | .error e => .error e
    | .ok m' => runCalls E m' cs

/-! ### Helper lemmas -/

/-- A non-strict submodule load always succeeds and copies in matching keys. -/
theorem loadSub_false {α : Type} (own d : StateDict α) :
    loadSub own d false = .ok (loadInto own "" d) := by
  simp [loadSub]

/-- Inversion for a successful submodule load. -/
theorem loadSub_ok {α : Type} {own d : StateDict α} {b : Bool} {out : StateDict α}
    (h : loadSub own d b = .ok out) : out = loadInto own "" d := by
  unfold loadSub at h
  split at h
  · exact absurd h (by simp)
  · injection h with h
    exact h.symm

/-- Inversion for a successful whole-module load. -/
theorem loadWhole_ok {α : Type} {m : STModule α} {sd : StateDict α} {b : Bool}
    {m' : STModule α} (h : loadWholeModule m sd b = .ok m') :
    m' = { m with
            noise := loadInto m.noise "" sd
            student := loadInto m.student "student." sd
            student_obs_normalizer := loadInto m.student_obs_normalizer "student_obs_normalizer." sd
            teacher := loadInto m.teacher "teacher." sd
            teacher_obs_normalizer :=
              loadInto m.teacher_obs_normalizer "teacher_obs_normalizer." sd } := by
  unfold loadWholeModule at h
  split at h
  · exact absurd h (by simp)
  · injection h with h
    exact h.symm

/-- All module state other than the stored action distribution and the student
normalizer statistics is unchanged between `m` and `m'`. -/
def framePreserved {α : Type} (m m' : STModule α) : Prop :=
  m'.loaded_teacher = m.loaded_teacher ∧
  m'.obs_groups_policy = m.obs_groups_policy ∧
  m'.obs_groups_teacher = m.obs_groups_teacher ∧
  m'.num_student_obs = m.num_student_obs ∧
  m'.num_teacher_obs = m.num_teacher_obs ∧
  m'.num_actions = m.num_actions ∧
  m'.student = m.student ∧
  m'.student_obs_normalization = m.student_obs_normalization ∧
  m'.teacher = m.teacher ∧
  m'.teacher_obs_normalization = m.teacher_obs_normalization ∧
  m'.teacher_obs_normalizer = m.teacher_obs_normalizer ∧
  m'.noise_std_type = m.noise_std_type ∧
  m'.noise = m.noise ∧
  m'.training = m.training ∧
  m'.student_training = m.student_training ∧
  m'.snorm_training = m.snorm_training ∧
  m'.teacher_training = m.teacher_training ∧
  m'.tnorm_training = m.tnorm_training

theorem framePreserved_refl {α : Type} (m : STModule α) : framePreserved m m := by
  unfold framePreserved
  exact ⟨rfl, rfl, rfl, rfl, rfl, rfl, rfl, rfl, rfl, rfl, rfl, rfl, rfl, rfl, rfl, rfl, rfl, rfl⟩

theorem framePreserved_trans {α : Type} {m1 m2 m3 : STModule α}
    (a : framePreserved m1 m2) (b : framePreserved m2 m3) : framePreserved m1 m3 := by
  obtain ⟨a1, a2, a3, a4, a5, a6, a7, a8, a9, a10, a11, a12, a13, a14, a15, a16, a17, a18⟩ := a
  obtain ⟨b1, b2, b3, b4, b5, b6, b7, b8, b9, b10, b11, b12, b13, b14, b15, b16, b17, b18⟩ := b
  exact ⟨b1.trans a1, b2.trans a2, b3.trans a3, b4.trans a4, b5.trans a5, b6.trans a6,
         b7.trans a7, b8.trans a8, b9.trans a9, b10.trans a10, b11.trans a11, b12.trans a12,
         b13.trans a13, b14.trans a14, b15.trans a15, b16.trans a16, b17.trans a17, b18.trans a18⟩

/-- A successful `update_distribution` changes only the stored distribution. -/
theorem update_distribution_frame {α : Type} (E : Ext α) {m : STModule α} {t : Tensor α}
    {m' : STModule α} (h : update_distribution E m t = .ok m') :
    framePreserved m m' ∧ m'.student_obs_normalizer = m.student_obs_normalizer := by
  unfold update_distribution at h
  split at h
  · exact absurd h (by simp)
  · injection h with h
    subst h
    unfold framePreserved
    exact ⟨⟨rfl, rfl, rfl, rfl, rfl, rfl, rfl, rfl, rfl, rfl, rfl, rfl, rfl, rfl, rfl, rfl,
            rfl, rfl⟩, rfl⟩

/-- A successful `act` changes only the stored distribution. -/
theorem act_frame {α : Type} [DecidableEq α] [Add α] [Mul α] (E : Ext α)
    {m : STModule α} {obs : StateDict α} {eps : Tensor α} {p : STModule α × Tensor α}
    (h : act E m obs eps = .ok p) :
    framePreserved m p.1 ∧ p.1.student_obs_normalizer = m.student_obs_normalizer := by
  unfold act at h
  split at h
  · exact absurd h (by simp)
  · next routed hg =>
    split at h
    · exact absurd h (by simp)
    · next mu hu =>
      split at h
      · next mean stdT hd =>
        injection h with h
        have hp : p.1 = mu := congrArg Prod.fst h.symm
        rw [hp]
        exact update_distribution_frame E hu
      · exact absurd h (by simp)

/-- A successful `update_normalization` changes only the student normalizer
statistics, and changes nothing when student normalization is disabled. -/
theorem update_normalization_frame {α : Type} [DecidableEq α] (E : Ext α)
    {m : STModule α} {obs : StateDict α} {m' : STModule α}
    (h : update_normalization E m obs = .ok m') :
    framePreserved m m' ∧ m'.distribution = m.distribution ∧
      (m.student_obs_normalization = false → m' = m) := by
  unfold update_normalization at h
  by_cases hf : m.student_obs_normalization = true
  · rw [if_pos hf] at h
    split at h
    · exact absurd h (by simp)
    · injection h with h
      subst h
      refine ⟨?_, rfl, ?_⟩
      · unfold framePreserved
        exact ⟨rfl, rfl, rfl, rfl, rfl, rfl, rfl, rfl, rfl, rfl, rfl, rfl, rfl, rfl, rfl,
               rfl, rfl, rfl⟩
      · intro hff
        rw [hf] at hff
        exact absurd hff (by simp)
  · rw [if_neg hf] at h
    injection h with h
    subst h
    exact ⟨framePreserved_refl m, rfl, fun _ => rfl⟩

/-- A successful rollout step changes only the stored distribution and the
student normalizer statistics. -/
theorem stepCall_frame {α : Type} [DecidableEq α] [Add α] [Mul α] (E : Ext α)
    {m : STModule α} {c : RolloutCall α} {m' : STModule α}
    (h : stepCall E m c = .ok m') :
    framePreserved m m' ∧
      (m.student_obs_normalization = false →
        m'.student_obs_normalizer = m.student_obs_normalizer) := by
  unfold stepCall at h
  split at h
  · next obs eps =>
    split at h
    · exact absurd h (by simp)
    · next p ha =>
      injection h with h
      obtain ⟨hfr, hsn⟩ := act_frame E ha
      rw [← h]
      exact ⟨hfr, fun _ => hsn⟩
  · next obs =>
    obtain ⟨hfr, -, hid⟩ := update_normalization_frame E h
    refine ⟨hfr, fun hff => ?_⟩
    rw [hid hff]

/-- A successful sequence of rollout calls changes only the stored distribution
and the student normalizer statistics. -/
theorem runCalls_frame {α : Type} [DecidableEq α] [Add α] [Mul α] (E : Ext α) :
    ∀ {cs : List (RolloutCall α)} {m m' : STModule α}, runCalls E m cs = .ok m' →
    framePreserved m m' ∧
      (m.student_obs_normalization = false →
        m'.student_obs_normalizer = m.student_obs_normalizer) := by
  intro cs
  induction cs with
  | nil =>
    intro m m' h
    unfold runCalls at h
    injection h with h
    subst h
    exact ⟨framePreserved_refl m, fun _ => rfl⟩
  | cons c cs ih =>
    intro m m' h
    unfold runCalls at h
    split at h
    · exact absurd h (by simp)
    next mm hs =>
      obtain ⟨s1, s2⟩ := stepCall_frame E hs
      obtain ⟨i1, i2⟩ := ih h
      refine ⟨framePreserved_trans s1 i1, fun hff => ?_⟩
      have hmm : mm.student_obs_normalization = false := by
        obtain ⟨-, -, -, -, -, -, -, h8, -⟩ := s1
        rw [h8, hff]
      rw [i2 hmm, s2 hff]

/-! ### Claim theorems -/

/-- C1: for every state dict in which some key contains the `"actor"` marker
substring, `load_state_dict` takes the prior-policy branch: whenever the call
returns, it reports `false` (training does not resume), the teacher MLP and
teacher normalizer hold exactly the values copied in from the actor-remapped
respectively actor-normalizer-remapped dicts, every student-side parameter and
the noise parameter and the stored distribution are left at their pre-call
values, the provenance flag is set, and the teacher side is forced into
evaluation mode; with `strict = false` the call always returns.  This branch
takes precedence even when a `"student"` marker key is also present, since the
hypothesis allows such keys. -/
theorem C1_prior_policy_branch {α : Type} (m m' : STModule α) (sd : StateDict α)
    (strict r : Bool)
    (hA : sd.any (fun kv => strOccurs "actor" kv.1) = true)
    (hload : load_state_dict m sd strict = .ok (m', r)) :
    r = false ∧
    m'.teacher = loadInto m.teacher "" (actorRemap sd) ∧
    m'.teacher_obs_normalizer = loadInto m.teacher_obs_normalizer "" (actorNormRemap sd) ∧
    m'.student = m.student ∧
    m'.student_obs_normalizer = m.student_obs_normalizer ∧
    m'.noise = m.noise ∧
    m'.distribution = m.distribution ∧
    m'.loaded_teacher = true ∧
    m'.teacher_training = false ∧
    m'.tnorm_training = false ∧
    (load_state_dict m sd false).isOk = true := by
  unfold load_state_dict at hload ⊢
  rw [if_pos hA] at hload ⊢
  cases h1 : loadSub m.teacher (actorRemap sd) strict with
  | error e => rw [h1] at hload; exact absurd hload (by simp)
  | ok tp =>
    rw [h1] at hload
    cases h2 : loadSub m.teacher_obs_normalizer (actorNormRemap sd) strict with
    | error e => rw [h2] at hload; exact absurd hload (by simp)
    | ok tnp =>
      rw [h2] at hload
      injection hload with hload
      have hm : m' = { m with
          teacher := tp, teacher_obs_normalizer := tnp, loaded_teacher := true,
          teacher_training := false, tnorm_training := false } :=
        (congrArg Prod.fst hload).symm
      have hr : r = false := (congrArg Prod.snd hload).symm
      subst hm
      refine ⟨hr, ?_, ?_, rfl, rfl, rfl, rfl, rfl, rfl, rfl, ?_⟩
      · exact loadSub_ok h1
      · exact loadSub_ok h2
      · rw [loadSub_false, loadSub_false]; rfl

/-- C2: for every state dict in which no key contains the `"actor"` marker but
some key contains the `"student"` marker, `load_state_dict` takes the prior
distillation branch: whenever the call returns, it reports `true` (training
resumes), the whole module's parameter set (student MLP, teacher MLP, both
normalizers, and the direct noise parameter) is loaded from the mapping through
the standard per-submodule key prefixes, the provenance flag is set, and the
teacher side is forced into evaluation mode; with `strict = false` the call
always returns, and an error is possible only under `strict = true`. -/
theorem C2_distillation_branch {α : Type} (m m' : STModule α) (sd : StateDict α)
    (strict r : Bool)
    (hA : sd.any (fun kv => strOccurs "actor" kv.1) = false)
    (hS : sd.any (fun kv => strOccurs "student" kv.1) = true)
    (hload : load_state_dict m sd strict = .ok (m', r)) :
    r = true ∧
    m'.student = loadInto m.student "student." sd ∧
    m'.student_obs_normalizer = loadInto m.student_obs_normalizer "student_obs_normalizer." sd ∧
    m'.teacher = loadInto m.teacher "teacher." sd ∧
    m'.teacher_obs_normalizer = loadInto m.teacher_obs_normalizer "teacher_obs_normalizer." sd ∧
    m'.noise = loadInto m.noise "" sd ∧
    m'.distribution = m.distribution ∧
    m'.loaded_teacher = true ∧
    m'.teacher_training = false ∧
    m'.tnorm_training = false ∧
    (load_state_dict m sd false).isOk = true := by
  unfold load_state_dict at hload ⊢
  rw [if_neg (by simp [hA]), if_pos hS] at hload ⊢
  cases h1 : loadWholeModule m sd strict with
  | error e => rw [h1] at hload; exact absurd hload (by simp)
  | ok mw =>
    rw [h1] at hload
    injection hload with hload
    have hm : m' = { mw with
        loaded_teacher := true, teacher_training := false, tnorm_training := false } :=
      (congrArg Prod.fst hload).symm
    have hr : r = true := (congrArg Prod.snd hload).symm
    have hw := loadWhole_ok h1
    subst hm
    refine ⟨hr, ?_, ?_, ?_, ?_, ?_, ?_, rfl, rfl, rfl, ?_⟩
    · rw [hw]
    · rw [hw]
    · rw [hw]
    · rw [hw]
    · rw [hw]
    · rw [hw]
    · simp only [loadWholeModule, Bool.false_and, Bool.false_eq_true, if_false]
      rfl

/-- C3: for every state dict in which no key contains the `"actor"` marker and
no key contains the `"student"` marker, `load_state_dict` raises the
descriptive classification `ValueError`; the raise happens before any load, so
no module state (parameters, normalizer statistics, or the provenance flag) is
mutated, which the embedding reflects by the error branch producing no module
value. -/
theorem C3_classification_error {α : Type} (m : STModule α) (sd : StateDict α)
    (strict : Bool)
    (hA : sd.any (fun kv => strOccurs "actor" kv.1) = false)
    (hS : sd.any (fun kv => strOccurs "student" kv.1) = false) :
    load_state_dict m sd strict =
      .error "state_dict does not contain student or teacher parameters" := by
  unfold load_state_dict
  rw [hA, hS]
  simp

/-- C7: after every call to `train mode`, for every boolean `mode` and every
prior module state (hence regardless of how many times training mode was
toggled before), the teacher MLP and the teacher normalizer are in evaluation
mode, while the student MLP and the student normalizer carry the requested
mode. -/
theorem C7_eval_mode_stickiness {α : Type} (m : STModule α) (mode : Bool) :
    (train m mode).teacher_training = false ∧
    (train m mode).tnorm_training = false ∧
    (train m mode).student_training = mode ∧
    (train m mode).snorm_training = mode := by
  simp [train]

/-- C8: after every successful finite sequence of `act` and
`update_normalization` calls, the teacher MLP parameters and the teacher
normalizer statistics are exactly their pre-sequence values, and so is all
other module state except the stored action distribution and the student
normalizer running statistics; the student normalizer statistics too are
unchanged when student normalization is disabled. -/
theorem C8_teacher_isolation {α : Type} [DecidableEq α] [Add α] [Mul α] (E : Ext α)
    (m m' : STModule α) (cs : List (RolloutCall α))
    (h : runCalls E m cs = .ok m') :
    m'.teacher = m.teacher ∧
    m'.teacher_obs_normalizer = m.teacher_obs_normalizer ∧
    framePreserved m m' ∧
    (m.student_obs_normalization = false →
      m'.student_obs_normalizer = m.student_obs_normalizer) := by
  obtain ⟨hfr, hsn⟩ := runCalls_frame E h
  have hc := hfr
  obtain ⟨-, -, -, -, -, -, -, -, h9, -, h11, -⟩ := hc
  exact ⟨h9, h11, hfr, hsn⟩

/-- C9: whenever the student observations route successfully,
`act_inference` returns the deterministic student output (route, normalize,
apply the student MLP) together with the module state itself — no sampling is
performed, no module state (in particular the stored action distribution) is
mutated, and a second call on the returned state with the same input is the
very same computation, hence returns the identical output. -/
theorem C9_inference_determinism {α : Type} [DecidableEq α] (E : Ext α)
    (m : STModule α) (obs : StateDict α) (routed : Tensor α)
    (hroute : get_student_obs m obs = .ok routed) :
    act_inference E m obs = .ok (m, E.mlpF m.student (applySNorm E m routed)) := by
  unfold act_inference
  rw [hroute]

/-- A successful checkpoint load never touches the `noise_std_type` attribute
(it is a plain string attribute, not a parameter tensor). -/
theorem load_preserves_noise_type {α : Type} {m : STModule α} {sd : StateDict α}
    {strict : Bool} {p : STModule α × Bool}
    (h : load_state_dict m sd strict = .ok p) : p.1.noise_std_type = m.noise_std_type := by
  unfold load_state_dict at h
  split at h
  · split at h
    · exact absurd h (by simp)
    · split at h
      · exact absurd h (by simp)
      · injection h with h
        rw [← h]
  · split at h
    · split at h
      · exact absurd h (by simp)
      · next mw hw =>
        injection h with h
        rw [← h, loadWhole_ok hw]
    · exact absurd h (by simp)

/-- Construction validates the noise parameterization mode: a successful
construction stores one of the two recognized mode strings. -/
theorem mk_noise_type {α : Type} {E : Ext α} {probe : StateDict α} {pg tg : List String}
    {na : Nat} {f1 f2 : Bool} {s0 t0 sn0 tn0 : StateDict α} {ins : α} {nst : String}
    {m : STModule α}
    (h : mkStudentTeacher E probe pg tg na f1 f2 s0 t0 sn0 tn0 ins nst = .ok m) :
    m.noise_std_type = "scalar" ∨ m.noise_std_type = "log" := by
  unfold mkStudentTeacher at h
  split at h
  · exact absurd h (by simp)
  · split at h
    · exact absurd h (by simp)
    · split at h
      · next hc =>
        injection h with h
        rw [← h]
        exact hc
      · exact absurd h (by simp)

/-- C10: the unknown-noise-type error branch of `update_distribution` is
unreachable for every module that completed construction: construction fails
for any mode other than `"scalar"` or `"log"` and otherwise stores one of the
two recognized modes; no runtime operation (`act`/`update_normalization`
sequences, `train`, `load_state_dict`) ever reassigns the stored mode; and for
a module whose mode is recognized, the standard-deviation dispatch of
`update_distribution` reduces to the corresponding recognized branch rather
than the unknown-type `ValueError`. -/
theorem C10_unknown_branch_unreachable {α : Type} [DecidableEq α] [Add α] [Mul α]
    (E : Ext α) :
    (∀ (probe : StateDict α) (pg tg : List String) (na : Nat) (f1 f2 : Bool)
        (s0 t0 sn0 tn0 : StateDict α) (ins : α) (nst : String) (m : STModule α),
        mkStudentTeacher E probe pg tg na f1 f2 s0 t0 sn0 tn0 ins nst = .ok m →
        m.noise_std_type = "scalar" ∨ m.noise_std_type = "log") ∧
    (∀ (probe : StateDict α) (pg tg : List String) (na : Nat) (f1 f2 : Bool)
        (s0 t0 sn0 tn0 : StateDict α) (ins : α) (nst : String),
        nst ≠ "scalar" → nst ≠ "log" →
        (mkStudentTeacher E probe pg tg na f1 f2 s0 t0 sn0 tn0 ins nst).isOk = false) ∧
    (∀ (m m' : STModule α) (cs : List (RolloutCall α)),
        runCalls E m cs = .ok m' → m'.noise_std_type = m.noise_std_type) ∧
    (∀ (m : STModule α) (mode : Bool), (train m mode).noise_std_type = m.noise_std_type) ∧
    (∀ (m : STModule α) (sd : StateDict α) (strict : Bool) (p : STModule α × Bool),
        load_state_dict m sd strict = .ok p → p.1.noise_std_type = m.noise_std_type) ∧
    (∀ (m : STModule α) (sh : List Nat), m.noise_std_type = "scalar" →
        noiseStdTensor E m sh = scalarBranchStd m sh) ∧
    (∀ (m : STModule α) (sh : List Nat), m.noise_std_type = "log" →
        noiseStdTensor E m sh = logBranchStd E m sh) := by
  refine ⟨?_, ?_, ?_, ?_, ?_, ?_, ?_⟩
  · intro probe pg tg na f1 f2 s0 t0 sn0 tn0 ins nst m h
    exact mk_noise_type h
  · intro probe pg tg na f1 f2 s0 t0 sn0 tn0 ins nst h1 h2
    unfold mkStudentTeacher
    split
    · rfl
    · split
      · rfl
      · rw [if_neg (show ¬(nst = "scalar" ∨ nst = "log") by
          rintro (h | h)
          exacts [h1 h, h2 h])]
        rfl
  · intro m m' cs h
    obtain ⟨hfr, -⟩ := runCalls_frame E h
    obtain ⟨-, -, -, -, -, -, -, -, -, -, -, h12, -⟩ := hfr
    exact h12
  · intro m mode
    rfl
  · intro m sd strict p h
    exact load_preserves_noise_type h
  · intro m sh hs
    unfold noiseStdTensor
    rw [if_pos hs]
  · intro m sh hl
    unfold noiseStdTensor
    rw [if_neg (by rw [hl]; decide), if_pos hl]

/-- The construction-time width sum equals the sum of the groups' feature
widths in the shape-probe mapping. -/
theorem sumWidths_ok {α : Type} {obs : StateDict α} :
    ∀ {gs : List String} {n : Nat}, sumWidths obs gs = .ok n →
    n = (gs.map (widthOf obs)).sum := by
  intro gs
  induction gs with
  | nil =>
    intro n h
    injection h with h
    simp [← h]
  | cons g gs ih =>
    intro n h
    unfold sumWidths at h
    split at h
    · exact absurd h (by simp)
    · next t hl =>
      split at h
      · split at h
        · next n' hr =>
          injection h with h
          rw [← h, ih hr]
          simp [widthOf, hl]
        · exact absurd h (by simp)
      · exact absurd h (by simp)

/-- Field inversion for a successful construction. -/
theorem mk_ok_fields {α : Type} {E : Ext α} {probe : StateDict α} {pg tg : List String}
    {na : Nat} {f1 f2 : Bool} {s0 t0 sn0 tn0 : StateDict α} {ins : α} {nst : String}
    {m : STModule α}
    (h : mkStudentTeacher E probe pg tg na f1 f2 s0 t0 sn0 tn0 ins nst = .ok m) :
    m.obs_groups_policy = pg ∧ m.obs_groups_teacher = tg ∧
    sumWidths probe pg = .ok m.num_student_obs ∧
    sumWidths probe tg = .ok m.num_teacher_obs ∧
    m.student_obs_normalization = f1 := by
  unfold mkStudentTeacher at h
  split at h
  · exact absurd h (by simp)
  · next nS h1 =>
    split at h
    · exact absurd h (by simp)
    · next nT h2 =>
      split at h
      · injection h with h
        rw [← h]
        exact ⟨rfl, rfl, h1, h2, rfl⟩
      · exact absurd h (by simp)

/-- Gathering succeeds and returns tensors of the hypothesised shapes when
every listed group is present with shape `[B, widthOf probe g]`. -/
theorem gatherGroups_shapes {α : Type} {obs probe : StateDict α} {B : Nat} :
    ∀ {gs : List String},
    (∀ g ∈ gs, ∃ t, lookupSD obs g = some t ∧ t.shape = [B, widthOf probe g]) →
    ∃ ts, gatherGroups obs gs = .ok ts ∧
      ts.map Tensor.shape = gs.map (fun g => [B, widthOf probe g]) := by
  intro gs
  induction gs with
  | nil => intro _; exact ⟨[], rfl, rfl⟩
  | cons g gs ih =>
    intro hp
    obtain ⟨t, hl, hsh⟩ := hp g (by simp)
    obtain ⟨ts, hg, hm⟩ := ih (fun g' hg' => hp g' (by simp [hg']))
    refine ⟨t :: ts, ?_, ?_⟩
    · unfold gatherGroups
      rw [hl, hg]
    · simp [hm, hsh]

theorem getLastD_pair (B w : Nat) : ([B, w] : List Nat).getLastD 0 = w := rfl

/-- `torch.cat` along the last axis of a non-empty batch of 2-D tensors of
common batch size `B` succeeds and returns a 2-D tensor of width the sum of
the widths. -/
theorem catLastDim_shape {α : Type} [DecidableEq α] {t : Tensor α} {rest : List (Tensor α)}
    {B w : Nat} {ws : List Nat}
    (h1 : t.shape = [B, w])
    (h2 : rest.map Tensor.shape = ws.map (fun u => [B, u])) :
    ∃ out, catLastDim (t :: rest) = .ok out ∧ out.shape = [B, (w :: ws).sum] := by
  have hall : ∀ u ∈ rest, ∃ wu, u.shape = [B, wu] := by
    intro u hu
    have hmem : u.shape ∈ ws.map (fun u => [B, u]) := h2 ▸ List.mem_map_of_mem _ hu
    obtain ⟨wu, -, he⟩ := List.mem_map.mp hmem
    exact ⟨wu, he.symm⟩
  have hcond : (rest.all (fun u =>
      u.shape.length == t.shape.length && u.shape.dropLast == t.shape.dropLast)) = true := by
    rw [List.all_eq_true]
    intro u hu
    obtain ⟨wu, he⟩ := hall u hu
    rw [he, h1]
    simp
  have hrest : rest.map lastDim = ws := by
    have h3 := congrArg (List.map (fun l : List Nat => l.getLastD 0)) h2
    rw [List.map_map, List.map_map] at h3
    have h4 : ws.map ((fun l : List Nat => l.getLastD 0) ∘ fun u => [B, u]) = ws := by
      have : ((fun l : List Nat => l.getLastD 0) ∘ fun u : Nat => [B, u]) = id := by
        funext u
        rfl
      rw [this, List.map_id]
    rw [h4] at h3
    exact h3
  have hcat : catLastDim (t :: rest) =
      .ok ⟨t.shape.dropLast ++ [((t :: rest).map lastDim).sum],
           (List.range t.shape.dropLast.prod).flatMap (fun r =>
             (t :: rest).flatMap (fun u => (u.data.drop (r * lastDim u)).take (lastDim u)))⟩ := by
    simp only [catLastDim]
    rw [if_neg (by rw [h1]; simp), if_pos hcond]
  have hsh : (t.shape.dropLast ++ [((t :: rest).map lastDim).sum]) = [B, (w :: ws).sum] := by
    have hlt : lastDim t = w := by
      unfold lastDim
      rw [h1]
      exact getLastD_pair B w
    rw [h1, List.map_cons, hlt, hrest]
    rfl
  exact ⟨_, hcat, hsh⟩

/-- C5: for every successful construction (whose shape probe necessarily had
all referenced groups 2-D), the cached `num_student_obs` / `num_teacher_obs`
equal the exact sums of the configured groups' feature widths, and for every
batch size `B`, routing a mapping that supplies each configured group as a
`B × width` tensor returns a tensor of shape `[B, cached width]` — the output
feature width is the cached sum, independent of `B`. -/
theorem C5_width_invariant {α : Type} [DecidableEq α] (E : Ext α) (probe : StateDict α)
    (pg tg : List String) (na : Nat) (f1 f2 : Bool) (s0 t0 sn0 tn0 : StateDict α)
    (ins : α) (nst : String) (m : STModule α) (obs : StateDict α) (B : Nat)
    (hmk : mkStudentTeacher E probe pg tg na f1 f2 s0 t0 sn0 tn0 ins nst = .ok m)
    (hS : ∀ g ∈ pg, ∃ t, lookupSD obs g = some t ∧ t.shape = [B, widthOf probe g])
    (hT : ∀ g ∈ tg, ∃ t, lookupSD obs g = some t ∧ t.shape = [B, widthOf probe g]) :
    m.num_student_obs = (pg.map (widthOf probe)).sum ∧
    m.num_teacher_obs = (tg.map (widthOf probe)).sum ∧
    (pg ≠ [] →
      (get_student_obs m obs).map Tensor.shape = .ok [B, m.num_student_obs]) ∧
    (tg ≠ [] →
      (get_teacher_obs m obs).map Tensor.shape = .ok [B, m.num_teacher_obs]) := by
  obtain ⟨hp, ht, hsw, htw, -⟩ := mk_ok_fields hmk
  have hns : m.num_student_obs = (pg.map (widthOf probe)).sum := sumWidths_ok hsw
  have hnt : m.num_teacher_obs = (tg.map (widthOf probe)).sum := sumWidths_ok htw
  refine ⟨hns, hnt, ?_, ?_⟩
  · intro hne
    obtain ⟨ts, hg, hm⟩ := gatherGroups_shapes hS
    cases ts with
    | nil =>
      cases pg with
      | nil => exact absurd rfl hne
      | cons g gs => simp at hm
    | cons t rest =>
      cases pg with
      | nil => exact absurd rfl hne
      | cons g gs =>
        rw [List.map_cons, List.map_cons] at hm
        injection hm with hm1 hm2
        have hm2' : rest.map Tensor.shape =
            (gs.map (widthOf probe)).map (fun u => [B, u]) := by
          rw [List.map_map]
          exact hm2
        obtain ⟨out, hcat, hsh⟩ := catLastDim_shape hm1 hm2'
        unfold get_student_obs
        rw [hp, hg]
        show Except.map Tensor.shape (catLastDim (t :: rest)) = Except.ok [B, m.num_student_obs]
        rw [hcat]
        show Except.ok out.shape = Except.ok [B, m.num_student_obs]
        rw [hsh, hns]
        rfl
  · intro hne
    obtain ⟨ts, hg, hm⟩ := gatherGroups_shapes hT
    cases ts with
    | nil =>
      cases tg with
      | nil => exact absurd rfl hne
      | cons g gs => simp at hm
    | cons t rest =>
      cases tg with
      | nil => exact absurd rfl hne
      | cons g gs =>
        rw [List.map_cons, List.map_cons] at hm
        injection hm with hm1 hm2
        have hm2' : rest.map Tensor.shape =
            (gs.map (widthOf probe)).map (fun u => [B, u]) := by
          rw [List.map_map]
          exact hm2
        obtain ⟨out, hcat, hsh⟩ := catLastDim_shape hm1 hm2'
        unfold get_teacher_obs
        rw [ht, hg]
        show Except.map Tensor.shape (catLastDim (t :: rest)) = Except.ok [B, m.num_teacher_obs]
        rw [hcat]
        show Except.ok out.shape = Except.ok [B, m.num_teacher_obs]
        rw [hsh, hnt]
        rfl

/-- Routing fails whenever a listed group is absent from the supplied
observation mapping (the Python `KeyError`). -/
theorem gatherGroups_missing {α : Type} {obs : StateDict α} {g : String} :
    ∀ {gs : List String}, g ∈ gs → lookupSD obs g = none →
    (gatherGroups obs gs).isOk = false := by
  intro gs
  induction gs with
  | nil => intro h _; exact absurd h (List.not_mem_nil g)
  | cons g' gs ih =>
    intro hmem hnone
    unfold gatherGroups
    split
    · rfl
    · next t hl =>
      have hg : g ∈ gs := by
        rcases List.mem_cons.mp hmem with h | h
        · subst h
          rw [hl] at hnone
          exact absurd hnone (by simp)
        · exact h
      have h2 := ih hg hnone
      split
      · rfl
      · next ts hts =>
        rw [hts] at h2
        exact Bool.noConfusion h2

theorem get_student_obs_missing {α : Type} [DecidableEq α] {m : STModule α}
    {obs : StateDict α} {g : String}
    (hg : g ∈ m.obs_groups_policy) (hn : lookupSD obs g = none) :
    (get_student_obs m obs).isOk = false := by
  unfold get_student_obs
  split
  · rfl
  · next ts hts =>
    have h := gatherGroups_missing hg hn
    rw [hts] at h
    exact Bool.noConfusion h

theorem get_teacher_obs_missing {α : Type} [DecidableEq α] {m : STModule α}
    {obs : StateDict α} {g : String}
    (hg : g ∈ m.obs_groups_teacher) (hn : lookupSD obs g = none) :
    (get_teacher_obs m obs).isOk = false := by
  unfold get_teacher_obs
  split
  · rfl
  · next ts hts =>
    have h := gatherGroups_missing hg hn
    rw [hts] at h
    exact Bool.noConfusion h

/-- C4 (amended): at every routing call, every observation group named in the
role's configured list must be present in the supplied mapping, and a missing
group is a fatal failure raised at that call, not a silently returned partial
result — per call: a missing policy group fails `get_student_obs`, `act`, and
`act_inference` on any module (regardless of the normalization flags or of the
teacher groups); a missing teacher group fails `get_teacher_obs` and
`evaluate` on any module; and a missing policy group fails
`update_normalization` whenever student normalization is enabled (when it is
disabled that call routes nothing and is a no-op).  Dimensionality, by
contrast, is checked only at construction: routing itself does not re-check
ranks, and a uniformly-ranked non-2-D mapping is concatenated without error
(see the counterexample). -/
theorem C4_missing_group_fatal {α : Type} [DecidableEq α] [Add α] [Mul α] (E : Ext α) :
    (∀ (m : STModule α) (obs : StateDict α) (g : String),
        g ∈ m.obs_groups_policy → lookupSD obs g = none →
        (get_student_obs m obs).isOk = false) ∧
    (∀ (m : STModule α) (obs : StateDict α) (g : String),
        g ∈ m.obs_groups_teacher → lookupSD obs g = none →
        (get_teacher_obs m obs).isOk = false) ∧
    (∀ (m : STModule α) (obs : StateDict α) (g : String) (eps : Tensor α),
        g ∈ m.obs_groups_policy → lookupSD obs g = none →
        (act E m obs eps).isOk = false) ∧
    (∀ (m : STModule α) (obs : StateDict α) (g : String),
        g ∈ m.obs_groups_policy → lookupSD obs g = none →
        (act_inference E m obs).isOk = false) ∧
    (∀ (m : STModule α) (obs : StateDict α) (g : String),
        g ∈ m.obs_groups_teacher → lookupSD obs g = none →
        (evaluate E m obs).isOk = false) ∧
    (∀ (m : STModule α) (obs : StateDict α) (g : String),
        g ∈ m.obs_groups_policy → lookupSD obs g = none →
        m.student_obs_normalization = true →
        (update_normalization E m obs).isOk = false) := by
  refine ⟨?_, ?_, ?_, ?_, ?_, ?_⟩
  · intro m obs g hg hmiss
    exact get_student_obs_missing hg hmiss
  · intro m obs g hg hmiss
    exact get_teacher_obs_missing hg hmiss
  · intro m obs g eps hg hmiss
    have hS := get_student_obs_missing hg hmiss
    unfold act
    split
    · rfl
    · next routed hro =>
      rw [hro] at hS
      exact Bool.noConfusion hS
  · intro m obs g hg hmiss
    have hS := get_student_obs_missing hg hmiss
    unfold act_inference
    split
    · rfl
    · next routed hro =>
      rw [hro] at hS
      exact Bool.noConfusion hS
  · intro m obs g hg hmiss
    have hT := get_teacher_obs_missing hg hmiss
    unfold evaluate
    split
    · rfl
    · next routed hro =>
      rw [hro] at hT
      exact Bool.noConfusion hT
  · intro m obs g hg hmiss hsn
    have hS := get_student_obs_missing hg hmiss
    unfold update_normalization
    rw [if_pos hsn]
    split
    · rfl
    · next routed hro =>
      rw [hro] at hS
      exact Bool.noConfusion hS

/-- C6: over idealized real arithmetic, for every positive
standard-deviation vector `s`, a module whose noise parameterization is
`"log"` with `log_std = log s` produces after `update_distribution` exactly the
same broadcast action standard deviation (and the same mean, from the same
student output) as the same module in `"scalar"` mode with `std = s`, because
`torch.exp (torch.log s) = s` for positive `s`. -/
theorem C6_noise_parameterization_equivalence (E : Ext ℝ) (hexp : E.qexp = Real.exp)
    (m : STModule ℝ) (n : Nat) (s : List ℝ) (hpos : ∀ x ∈ s, 0 < x) (obsT : Tensor ℝ) :
    (update_distribution E
        { m with noise_std_type := "log",
                 noise := [("log_std", ⟨[n], s.map Real.log⟩)] } obsT).map
      (fun mm => mm.distribution.map (fun d => d.2))
    = (update_distribution E
        { m with noise_std_type := "scalar", noise := [("std", ⟨[n], s⟩)] } obsT).map
      (fun mm => mm.distribution.map (fun d => d.2)) := by
  have hmaps : s.map (Real.exp ∘ Real.log) = s := by
    have hpt : ∀ x ∈ s, (Real.exp ∘ Real.log) x = id x := fun x hx => Real.exp_log (hpos x hx)
    rw [List.map_congr_left hpt, List.map_id]
  simp [update_distribution, noiseStdTensor, logBranchStd, scalarBranchStd,
    lookupSD, List.find?, tmap, hexp, hmaps]
  rfl

/-! ### Concrete fixtures for witnesses and counterexamples -/

/-- Concrete external collaborators over `ℚ`: identity MLP forward, identity
normalizer forward, no-op statistics update, identity exp/log stand-ins. -/
def extQ : Ext ℚ := ⟨fun _ t => t, fun _ t => t, fun sd _ => sd, id, id⟩

/-- A concrete module state used by the witnesses. -/
def mFix : STModule ℚ where
  loaded_teacher := false
  obs_groups_policy := ["a"]
  obs_groups_teacher := ["a"]
  num_student_obs := 2
  num_teacher_obs := 2
  num_actions := 1
  student := [("l.weight", ⟨[1, 2], [5, 6]⟩)]
  student_obs_normalization := false
  student_obs_normalizer := []
  teacher := [("l.weight", ⟨[1, 2], [7, 8]⟩)]
  teacher_obs_normalization := false
  teacher_obs_normalizer := []
  noise_std_type := "scalar"
  noise := [("std", ⟨[1], [1]⟩)]
  distribution := none
  training := true
  student_training := true
  snorm_training := true
  teacher_training := false
  tnorm_training := true

/-- An actor-critic checkpoint fixture: an `actor` key, a `critic` key, and
also a `student` key to exercise the branch precedence. -/
def sdC1 : StateDict ℚ :=
  [("actor.l.weight", ⟨[1, 2], [101, 102]⟩), ("critic.l.weight", ⟨[1, 2], [0, 0]⟩),
   ("student.x", ⟨[1], [3]⟩)]

/-- The module state after loading `sdC1` into `mFix`. -/
def mAfterC1 : STModule ℚ :=
  { mFix with teacher := [("l.weight", ⟨[1, 2], [101, 102]⟩)],
              loaded_teacher := true, teacher_training := false, tnorm_training := false }

/-- A distillation checkpoint fixture matching `mFix`'s own flat key set. -/
def sdC2 : StateDict ℚ :=
  [("std", ⟨[1], [2]⟩), ("student.l.weight", ⟨[1, 2], [201, 202]⟩),
   ("teacher.l.weight", ⟨[1, 2], [203, 204]⟩)]

/-- The module state after loading `sdC2` into `mFix`. -/
def mAfterC2 : STModule ℚ :=
  { mFix with student := [("l.weight", ⟨[1, 2], [201, 202]⟩)],
              teacher := [("l.weight", ⟨[1, 2], [203, 204]⟩)],
              noise := [("std", ⟨[1], [2]⟩)],
              loaded_teacher := true, teacher_training := false, tnorm_training := false }

/-- A 2-D shape probe with groups `a` (width 2) and `b` (width 1). -/
def probe5 : StateDict ℚ := [("a", ⟨[1, 2], [0, 0]⟩), ("b", ⟨[1, 1], [0]⟩)]

/-- A batch-2 runtime observation mapping with the same widths as `probe5`. -/
def obs5 : StateDict ℚ := [("a", ⟨[2, 2], [1, 2, 3, 4]⟩), ("b", ⟨[2, 1], [9, 10]⟩)]

/-- The module produced by construction from `probe5` with policy groups
`[a, b]` and teacher group `[b]`. -/
def mMk5 : STModule ℚ where
  loaded_teacher := false
  obs_groups_policy := ["a", "b"]
  obs_groups_teacher := ["b"]
  num_student_obs := 3
  num_teacher_obs := 1
  num_actions := 1
  student := []
  student_obs_normalization := false
  student_obs_normalizer := []
  teacher := []
  teacher_obs_normalization := false
  teacher_obs_normalizer := []
  noise_std_type := "scalar"
  noise := [("std", ⟨[1], [1]⟩)]
  distribution := none
  training := true
  student_training := true
  snorm_training := true
  teacher_training := false
  tnorm_training := true

/-- A module with student normalization enabled, for the missing-group
witness. -/
def mFixN : STModule ℚ := { mFix with student_obs_normalization := true }

/-- A rollout observation mapping for `mFix` (group `a`, batch 1, width 2). -/
def obsR : StateDict ℚ := [("a", ⟨[1, 2], [3, 4]⟩)]

/-- The module state after `act` then `update_normalization` on `mFix`. -/
def mAfterC8 : STModule ℚ :=
  { mFix with distribution := some (⟨[1, 2], [3, 4]⟩, ⟨[1, 2], [1]⟩) }

/-- A module state over `ℝ` (empty parameter dicts) for the idealized-real
noise-equivalence witness. -/
def mR6 : STModule ℝ where
  loaded_teacher := false
  obs_groups_policy := ["a"]
  obs_groups_teacher := ["a"]
  num_student_obs := 1
  num_teacher_obs := 1
  num_actions := 1
  student := []
  student_obs_normalization := false
  student_obs_normalizer := []
  teacher := []
  teacher_obs_normalization := false
  teacher_obs_normalizer := []
  noise_std_type := "scalar"
  noise := []
  distribution := none
  training := true
  student_training := true
  snorm_training := true
  teacher_training := false
  tnorm_training := true

/-- C4 counterexample: the claim asserts that a non-2-D observation group is a
fatal failure at the routing call; on the code, a module constructed from a
valid 2-D shape probe routes a 1-D observation group without any error —
`get_student_obs` returns the concatenated 1-D tensor. -/
theorem C4_counterexample :
    ((mkStudentTeacher extQ [("a", ⟨[1, 2], [0, 0]⟩)] ["a"] ["a"] 1 false false
        [] [] [] [] (1 : ℚ) "scalar").bind
      (fun m => get_student_obs m [("a", ⟨[3], [1, 2, 3]⟩)])
      = .ok ⟨[3], [1, 2, 3]⟩) ∧
    (lookupSD ([("a", ⟨[3], [1, 2, 3]⟩)] : StateDict ℚ) "a").map
        (fun t => t.shape.length) = some 1 := by
  decide

/-! ### Witnesses -/

theorem C1_witness :
    false = false ∧
    mAfterC1.teacher = loadInto mFix.teacher "" (actorRemap sdC1) ∧
    mAfterC1.teacher_obs_normalizer = loadInto mFix.teacher_obs_normalizer "" (actorNormRemap sdC1) ∧
    mAfterC1.student = mFix.student ∧
    mAfterC1.student_obs_normalizer = mFix.student_obs_normalizer ∧
    mAfterC1.noise = mFix.noise ∧
    mAfterC1.distribution = mFix.distribution ∧
    mAfterC1.loaded_teacher = true ∧
    mAfterC1.teacher_training = false ∧
    mAfterC1.tnorm_training = false ∧
    (load_state_dict mFix sdC1 false).isOk = true :=
  C1_prior_policy_branch mFix mAfterC1 sdC1 true false (by decide) (by decide)

theorem C2_witness :
    true = true ∧
    mAfterC2.student = loadInto mFix.student "student." sdC2 ∧
    mAfterC2.student_obs_normalizer = loadInto mFix.student_obs_normalizer "student_obs_normalizer." sdC2 ∧
    mAfterC2.teacher = loadInto mFix.teacher "teacher." sdC2 ∧
    mAfterC2.teacher_obs_normalizer = loadInto mFix.teacher_obs_normalizer "teacher_obs_normalizer." sdC2 ∧
    mAfterC2.noise = loadInto mFix.noise "" sdC2 ∧
    mAfterC2.distribution = mFix.distribution ∧
    mAfterC2.loaded_teacher = true ∧
    mAfterC2.teacher_training = false ∧
    mAfterC2.tnorm_training = false ∧
    (load_state_dict mFix sdC2 false).isOk = true :=
  C2_distillation_branch mFix mAfterC2 sdC2 true true (by decide) (by decide) (by decide)

theorem C3_witness :
    load_state_dict mFix [("critic.x", ⟨[1], [0]⟩)] true =
      .error "state_dict does not contain student or teacher parameters" :=
  C3_classification_error mFix [("critic.x", ⟨[1], [0]⟩)] true (by decide) (by decide)

theorem C4_witness :
    (get_student_obs mFix ([] : StateDict ℚ)).isOk = false ∧
    (get_teacher_obs mFix ([] : StateDict ℚ)).isOk = false ∧
    (act extQ mFix ([] : StateDict ℚ) ⟨[1], [0]⟩).isOk = false ∧
    (act_inference extQ mFix ([] : StateDict ℚ)).isOk = false ∧
    (evaluate extQ mFix ([] : StateDict ℚ)).isOk = false ∧
    (update_normalization extQ mFixN ([] : StateDict ℚ)).isOk = false :=
  ⟨(C4_missing_group_fatal extQ).1 mFix [] "a" (by decide) (by decide),
   (C4_missing_group_fatal extQ).2.1 mFix [] "a" (by decide) (by decide),
   (C4_missing_group_fatal extQ).2.2.1 mFix [] "a" ⟨[1], [0]⟩ (by decide) (by decide),
   (C4_missing_group_fatal extQ).2.2.2.1 mFix [] "a" (by decide) (by decide),
   (C4_missing_group_fatal extQ).2.2.2.2.1 mFix [] "a" (by decide) (by decide),
   (C4_missing_group_fatal extQ).2.2.2.2.2 mFixN [] "a" (by decide) (by decide) (by decide)⟩

theorem C5_witness :
    mMk5.num_student_obs = ((["a", "b"] : List String).map (widthOf probe5)).sum ∧
    mMk5.num_teacher_obs = ((["b"] : List String).map (widthOf probe5)).sum ∧
    ((["a", "b"] : List String) ≠ [] →
      (get_student_obs mMk5 obs5).map Tensor.shape = .ok [2, mMk5.num_student_obs]) ∧
    ((["b"] : List String) ≠ [] →
      (get_teacher_obs mMk5 obs5).map Tensor.shape = .ok [2, mMk5.num_teacher_obs]) :=
  C5_width_invariant extQ probe5 ["a", "b"] ["b"] 1 false false [] [] [] []
    (1 : ℚ) "scalar" mMk5 obs5 2 (by decide)
    (by
      intro g hg
      rcases List.mem_cons.mp hg with rfl | hg
      · exact ⟨⟨[2, 2], [1, 2, 3, 4]⟩, rfl, rfl⟩
      · rcases List.mem_cons.mp hg with rfl | hg
        · exact ⟨⟨[2, 1], [9, 10]⟩, rfl, rfl⟩
        · exact absurd hg (List.not_mem_nil g))
    (by
      intro g hg
      rcases List.mem_cons.mp hg with rfl | hg
      · exact ⟨⟨[2, 1], [9, 10]⟩, rfl, rfl⟩
      · exact absurd hg (List.not_mem_nil g))

theorem C6_witness :
    (update_distribution (⟨fun _ t => t, fun _ t => t, fun sd _ => sd,
          Real.exp, Real.log⟩ : Ext ℝ)
        { mR6 with noise_std_type := "log",
                   noise := [("log_std", ⟨[1], ([(1 : ℝ)]).map Real.log⟩)] } ⟨[1], [0]⟩).map
      (fun mm => mm.distribution.map (fun d => d.2))
    = (update_distribution (⟨fun _ t => t, fun _ t => t, fun sd _ => sd,
          Real.exp, Real.log⟩ : Ext ℝ)
        { mR6 with noise_std_type := "scalar",
                   noise := [("std", ⟨[1], [(1 : ℝ)]⟩)] } ⟨[1], [0]⟩).map
      (fun mm => mm.distribution.map (fun d => d.2)) :=
  C6_noise_parameterization_equivalence
    ⟨fun _ t => t, fun _ t => t, fun sd _ => sd, Real.exp, Real.log⟩ rfl mR6 1 [1]
    (by norm_num) ⟨[1], [0]⟩

theorem C8_witness :
    mAfterC8.teacher = mFix.teacher ∧
    mAfterC8.teacher_obs_normalizer = mFix.teacher_obs_normalizer ∧
    framePreserved mFix mAfterC8 ∧
    (mFix.student_obs_normalization = false →
      mAfterC8.student_obs_normalizer = mFix.student_obs_normalizer) :=
  C8_teacher_isolation extQ mFix mAfterC8
    [RolloutCall.actC obsR ⟨[1, 2], [0, 0]⟩, RolloutCall.updC obsR] (by decide)

theorem C9_witness :
    act_inference extQ mFix obsR =
      .ok (mFix, extQ.mlpF mFix.student (applySNorm extQ mFix ⟨[1, 2], [3, 4]⟩)) :=
  C9_inference_determinism extQ mFix obsR ⟨[1, 2], [3, 4]⟩ (by decide)

theorem C10_witness :
    mMk5.noise_std_type = "scalar" ∨ mMk5.noise_std_type = "log" :=
  (C10_unknown_branch_unreachable extQ).1 probe5 ["a", "b"] ["b"] 1 false false
    [] [] [] [] (1 : ℚ) "scalar" mMk5 (by decide)

end StudentTeacherSpec
